import Mathlib

/-
  Verification of the SYSC4001_A2_P3 trace interpreter (src/interrupts.cpp).

  The interpreter `simulate_trace` is embedded shallowly as `simT`, a
  fuel-indexed total function: `none` means the fuel ran out.  The C++
  global `next_pid`, the memory-partition pool and the pseudo-random
  stream are threaded explicitly through `SimSt`/`Env`.  Log strings are
  represented structurally as `(time, duration, label)` entries and
  status snapshots as records carrying the dumped PCB and wait queue.
-/

namespace Interrupts

/-- One line of the execution log: `"<time>, <duration>, <label>"`. -/
structure Entry where
  time : Nat
  dur : Nat
  label : String
  deriving DecidableEq, Repr

/-- Process control block, as constructed in the source:
`PCB(pid, ppid, program_name, size, partition_number)`. -/
structure PCB where
  PID : Int
  PPID : Int
  program_name : String
  size : Nat
  partition_number : Int
  deriving DecidableEq, Repr

/-- A memory partition: fixed capacity plus an occupancy flag
(the MemoryPartitionPool element of the data model). -/
structure Partition where
  number : Int
  size : Nat
  occupied : Bool
  deriving DecidableEq, Repr

/-- An entry of the external-program registry (program name and size). -/
structure external_file where
  program_name : String
  size : Nat
  deriving DecidableEq, Repr

/-- One block of the system-status log, as appended at FORK/EXEC:
`"time: <t>; current trace: <label>, <op>"` followed by the rendered
current/child PCB and the wait queue (`print_PCB`).  The renderer is an
excluded collaborator, so the dumped data is kept structurally. -/
structure Snap where
  time : Nat
  label : String
  op : Nat
  pcb : PCB
  queue : List PCB
  deriving DecidableEq, Repr

/-- The process-wide mutable state threaded through the interpreter:
the `next_pid` counter (initialized to 1 in the source), the partition
pool, and the position in the pseudo-random stream. -/
structure SimSt where
  next_pid : Int
  pool : List Partition
  rk : Nat
  deriving DecidableEq, Repr

/-- Result of one interpretation call: execution log, status log, final
clock, final shared state, stderr diagnostics, and the pids issued
(in order of assignment) during the call. -/
structure SimResult where
  execution : List Entry
  status : List Snap
  time : Nat
  st : SimSt
  errs : List String
  pids : List Int
  deriving DecidableEq, Repr

/-- Immutable configuration: vector table, ISR delay table, external
file registry, the trace-source lookup used by EXEC, and the
pseudo-random stream (`rands k` is the k-th `rand()` value). -/
structure Env where
  vectors : List String
  delays : List Nat
  external_files : List external_file
  progTraces : String → Option (List String)
  rands : Nat → Nat

/-- Split a character list at every occurrence of `sep`. -/
def splitChars (sep : Char) : List Char → List (List Char)
  | [] => [[]]
  | c :: cs =>
    let r := splitChars sep cs
    if c = sep then [] :: r
    else (c :: r.headD []) :: r.tail

/-- Drop leading and trailing spaces. -/
def trimSpaces (cs : List Char) : List Char :=
  (((cs.dropWhile (fun c => c = ' ')).reverse).dropWhile (fun c => c = ' ')).reverse

/-- Decimal value of a digit list. -/
def digitsVal (cs : List Char) : Nat :=
  cs.foldl (fun acc c => acc * 10 + (c.toNat - 48)) 0

/-- Parse a numeric field; non-numeric or empty fields yield 0. -/
def parseNatField (cs : List Char) : Nat :=
  if cs ≠ [] ∧ cs.all Char.isDigit = true then digitsVal cs else 0

/-- Modelled from the spec: the Trace Parser (§4.1) is declared in
`interrupts.hpp`, which is not under src/.  It splits a comma-separated
line into an activity tag and up to one operand; a numeric operand is
stored as the numeric operand, EXEC's program name (second token of the
first field, as in `EXEC prog, 5`) as the name operand.  The source
interpreter destructures the result unconditionally and its dispatch
chain has no failure arm, so the parser is modelled total. -/
def parse_trace (line : String) : String × Nat × String :=
  let fields := (splitChars ',' line.data).map trimSpaces
  let toks := (splitChars ' ' (fields.headD [])).filter (fun t => t ≠ [])
  let activity := String.mk (toks.headD [])
  let pname := String.mk ((toks.drop 1).headD [])
  let num := parseNatField (fields.getD 1 [])
  (activity, num, pname)

/-- Modelled from the spec: the Interrupt Prologue Simulator (§4.2) is
not under src/.  It emits "switch to kernel mode" (cost 1), "context
saved" (cost `cost`), and "find vector idx in memory position
vectors[idx]" (cost 1), returning the fragment and the advanced clock.
§4.2 declares an out-of-range device index a fatal OutOfRangeVector,
but the source caller destructures the result unconditionally and has
no failure arm, so no failure is observable in `simulate_trace`; the
model is therefore total, reading the vector address with a defaulting
lookup.  No theorem below leans on the defaulted value: every concrete
run in this file keeps the device index inside the vector table. -/
def intr_boilerplate (t : Nat) (idx : Nat) (cost : Nat) (vectors : List String) :
    List Entry × Nat :=
  ([{ time := t, dur := 1, label := "switch to kernel mode" },
    { time := t + 1, dur := cost, label := "context saved" },
    { time := t + 1 + cost, dur := 1,
      label := "find vector " ++ toString idx ++ " in memory position " ++
        vectors.getD idx "" }],
   t + 1 + cost + 1)

/-- Modelled from the spec: the ExternalFileRegistry lookup (§6) is not
under src/; the source stores the result in an `unsigned int`, so an
absent program is modelled as size 0. -/
def get_size (pname : String) (efs : List external_file) : Nat :=
  match efs.find? (fun e => e.program_name == pname) with
  | some e => e.size
  | none => 0

/-- Pick the free candidate with the smallest capacity (earliest on ties). -/
def pickBest : List Partition → Option Partition
  | [] => none
  | q :: qs =>
    match pickBest qs with
    | none => some q
    | some r => if q.size ≤ r.size then some q else some r

/-- Modelled from the spec: the Memory Partition Allocator (§4.3) is not
under src/.  Best-fit: among free partitions whose capacity is at least
`p.size`, the one with smallest capacity is marked occupied and its
number stored in the PCB; `none` (no mutation) if none fits. -/
def allocate_memory (pool : List Partition) (p : PCB) :
    Option (List Partition × PCB) :=
  match pickBest (pool.filter (fun q => !q.occupied && decide (p.size ≤ q.size))) with
  | none => none
  | some b =>
    some (pool.map (fun q => if q.number = b.number then { q with occupied := true } else q),
          { p with partition_number := b.number })

/-- Modelled from the spec: the release half of §4.3, not under src/.
If the PCB's partition is not the sentinel -1, mark it free and reset
the field; idempotent on an already-released PCB. -/
def free_memory (pool : List Partition) (p : PCB) : List Partition × PCB :=
  if p.partition_number = -1 then (pool, p)
  else (pool.map (fun q => if q.number = p.partition_number then { q with occupied := false } else q),
        { p with partition_number := -1 })

/-- The FORK branch-carving scan, source lines 107-133: walk the
remaining trace lines (`j` is the index of the head line) with a
`skip` flag (initially true), collecting the child's lines;
`IF_CHILD` in skip mode clears skip, `IF_PARENT` sets skip and records
`parent_index` (breaking if an EXEC was already collected), `ENDIF` in
skip mode clears skip, an EXEC outside skip mode is collected and
re-enters skip mode.  Returns the child trace and the final
`parent_index` (0 if no `IF_PARENT` was seen). -/
def carveAux : List String → Nat → Bool → Bool → Nat → List String →
    List String × Nat
  | [], _, _, _, parent_index, acc => (acc, parent_index)
  | line :: rest, j, skip, exec_flag, parent_index, acc =>
    let a := (parse_trace line).1
    if skip = true ∧ a = "IF_CHILD" then
      carveAux rest (j + 1) false exec_flag parent_index acc
    else if a = "IF_PARENT" then
      if exec_flag = true then (acc, j)
      else carveAux rest (j + 1) true exec_flag j acc
    else if skip = true ∧ a = "ENDIF" then
      carveAux rest (j + 1) false exec_flag parent_index acc
    else if skip = false ∧ a = "EXEC" then
      carveAux rest (j + 1) true true parent_index (acc ++ [line])
    else if skip = false then
      carveAux rest (j + 1) skip exec_flag parent_index (acc ++ [line])
    else
      carveAux rest (j + 1) skip exec_flag parent_index acc

/-- Splice a handler's own output in front of the continuation's result. -/
def prependRes (es : List Entry) (ss : List Snap) (er : List String) (ps : List Int)
    (r : SimResult) : SimResult :=
  { execution := es ++ r.execution, status := ss ++ r.status, time := r.time,
    st := r.st, errs := er ++ r.errs, pids := ps ++ r.pids }

/-- The pure prefix of the SYSCALL/END_IO handlers (source lines 55-79):
interrupt prologue, the ISR entry whose duration is the (unchecked)
delay-table read, and the IRET; returns the entries and new clock. -/
def sysStep (label : String) (env : Env) (time : Nat) (duration_intr : Nat) :
    List Entry × Nat :=
  let ib := intr_boilerplate time duration_intr 10 env.vectors
  let d := env.delays.getD duration_intr 0
  (ib.1 ++ [{ time := ib.2, dur := d, label := label },
            { time := ib.2 + d, dur := 1, label := "IRET" }],
   ib.2 + d + 1)

/-- The pure prefix of the EXEC handler (source lines 156-203): prologue,
program-size lookup, loading, release of the current partition, PCB
update, reallocation (failure only produces a stderr diagnostic), the
two pseudo-random delays, scheduler/IRET.  Returns the emitted entries,
the clock after IRET, the updated PCB, the updated shared state, and
the stderr diagnostics. -/
structure ExecPre where
  es : List Entry
  t4 : Nat
  cur3 : PCB
  st1 : SimSt
  errA : List String
  deriving DecidableEq, Repr

def execPre (env : Env) (time : Nat) (current : PCB) (st : SimSt)
    (duration_intr : Nat) (program_name : String) : ExecPre :=
  let ib := intr_boilerplate time 3 10 env.vectors
  let t1 := ib.2
  let program_size := get_size program_name env.external_files
  let t2 := t1 + duration_intr
  let load_time := program_size * 15
  let t3 := t2 + load_time
  let fm := free_memory st.pool current
  let cur2 : PCB := { fm.2 with program_name := program_name, size := program_size }
  let alloc := allocate_memory fm.1 cur2
  let pool2 := match alloc with | some pr => pr.1 | none => fm.1
  let cur3 := match alloc with | some pr => pr.2 | none => cur2
  let errA : List String :=
    match alloc with
    | some _ => []
    | none => ["ERROR! Memory allocation failed for " ++ program_name]
  let mark_time := env.rands st.rk % 10 + 1
  let update_time := env.rands (st.rk + 1) % 10 + 1
  let t4 := t3 + mark_time + update_time + 1
  { es := ib.1 ++
      [{ time := t1, dur := duration_intr,
         label := "Program is " ++ toString program_size ++ " Mb large" },
       { time := t2, dur := load_time, label := "loading program into memory" },
       { time := t3, dur := mark_time, label := "marking partition as occupied" },
       { time := t3 + mark_time, dur := update_time, label := "updating PCB" },
       { time := t3 + mark_time + update_time, dur := 0, label := "scheduler called" },
       { time := t3 + mark_time + update_time, dur := 1, label := "IRET" }],
    t4 := t4, cur3 := cur3,
    st1 := { next_pid := st.next_pid, pool := pool2, rk := st.rk + 2 },
    errA := errA }

/-- Shallow embedding of `simulate_trace` (source lines 31-239), with an
explicit trace index `i` (the source `for` loop) and a fuel parameter:
`none` means the fuel was exhausted before the call returned. -/
def simT : Nat → Env → List String → Nat → Nat → PCB → List PCB → SimSt →
    Option SimResult
  | 0, _, _, _, _, _, _, _ => none
  | fuel + 1, env, trace, i, time, current, wq, st =>
    if i < trace.length then
      let line := trace.getD i ""
      let activity := (parse_trace line).1
      let duration_intr := (parse_trace line).2.1
      let program_name := (parse_trace line).2.2
      if activity = "CPU" then
        (simT fuel env trace (i + 1) (time + duration_intr) current wq st).map
          (prependRes [{ time := time, dur := duration_intr, label := "CPU Burst" }] [] [] [])
      else if activity = "SYSCALL" then
        let sys := sysStep "SYSCALL ISR" env time duration_intr
        (simT fuel env trace (i + 1) sys.2 current wq st).map
          (prependRes sys.1 [] [] [])
      else if activity = "END_IO" then
        let sys := sysStep "ENDIO ISR" env time duration_intr
        (simT fuel env trace (i + 1) sys.2 current wq st).map
          (prependRes sys.1 [] [] [])
      else if activity = "FORK" then
        let ib := intr_boilerplate time 2 10 env.vectors
        let t1 := ib.2
        let t2 := t1 + duration_intr + 1
        let child : PCB := { PID := st.next_pid, PPID := current.PID,
                             program_name := current.program_name, size := current.size,
                             partition_number := current.partition_number }
        let st1 : SimSt := { st with next_pid := st.next_pid + 1 }
        let wq1 := wq ++ [current]
        let snap : Snap := { time := t2, label := "FORK", op := duration_intr,
                             pcb := child, queue := wq1 }
        let carved := carveAux (trace.drop (i + 1)) (i + 1) true false 0 []
        match simT fuel env carved.1 0 t2 child [] st1 with
        | none => none
        | some rc =>
          let st2 : SimSt := { rc.st with pool := (free_memory rc.st.pool child).1 }
          (simT fuel env trace (carved.2 + 1) rc.time current wq1 st2).map
            (prependRes
              (ib.1 ++
               [{ time := t1, dur := duration_intr, label := "cloning the PCB" },
                { time := t1 + duration_intr, dur := 0, label := "scheduler called" },
                { time := t1 + duration_intr, dur := 1, label := "IRET" }] ++
               rc.execution)
              (snap :: rc.status) rc.errs (child.PID :: rc.pids))
      else if activity = "EXEC" then
        let ep := execPre env time current st duration_intr program_name
        let snap : Snap := { time := ep.t4, label := "EXEC " ++ program_name,
                             op := duration_intr, pcb := ep.cur3, queue := wq }
        match env.progTraces program_name with
        | none =>
          some { execution := ep.es, status := [snap], time := ep.t4, st := ep.st1,
                 errs := ep.errA ++ ["ERROR! Could not open " ++ program_name ++ ".txt"],
                 pids := [] }
        | some nt =>
          (simT fuel env nt 0 ep.t4 ep.cur3 wq ep.st1).map
            (prependRes ep.es [snap] ep.errA [])
      else
        simT fuel env trace (i + 1) time current wq st
    else
      some { execution := [], status := [], time := time, st := st, errs := [], pids := [] }

/-- `Chained t es t'` : the entries `es` start at clock `t`, each next
entry starts exactly where the previous one ended (start + duration),
and the run ends at clock `t'`. -/
def Chained : Nat → List Entry → Nat → Prop
  | t, [], t' => t' = t
  | t, e :: es, t' => e.time = t ∧ Chained (t + e.dur) es t'

/-- `PidSpan lo ps hi` : the pids `ps`, in issue order, are each at least
the counter value at the time of their issue, the counter grows past
each, and ends at `hi`. -/
def PidSpan : Int → List Int → Int → Prop
  | lo, [], hi => lo ≤ hi
  | lo, p :: ps, hi => lo ≤ p ∧ PidSpan (p + 1) ps hi

/-- No two PCBs in the list with distinct pids hold the same
non-sentinel partition. -/
def pcbsExclusive : List PCB → Bool
  | [] => true
  | p :: ps =>
    ps.all (fun q => !(p.PID != q.PID && p.partition_number != -1 &&
      p.partition_number == q.partition_number)) && pcbsExclusive ps

/-- Partition exclusivity of one status snapshot: among the PCBs it
records as live (the dumped PCB and the wait queue), no two with
distinct pids hold the same non-sentinel partition. -/
def snapExclusive (s : Snap) : Bool :=
  pcbsExclusive (s.pcb :: s.queue)

/-- Every FORK status snapshot records the child PCB sharing the
partition of the forking parent, which sits at the end of the dumped
wait queue. -/
def ForkSnapShares (s : Snap) : Prop :=
  s.label = "FORK" → s.queue ≠ [] ∧
    s.pcb.partition_number = (s.queue.getLastD s.pcb).partition_number

/-- The initial PCB of the simulation (`PCB current(0, -1, "init", 1, -1)`
in `main`), after its successful allocation into partition 0. -/
def pcbInit : PCB :=
  { PID := 0, PPID := -1, program_name := "init", size := 1, partition_number := 0 }

/-- A one-partition pool in which `pcbInit` occupies partition 0. -/
def poolInit : List Partition := [{ number := 0, size := 2, occupied := true }]

/-- Initial shared state: `next_pid = 1`, the pool above, rand stream at 0. -/
def stInit : SimSt := { next_pid := 1, pool := poolInit, rk := 0 }

/-- Scenario A configuration: vectors `["0x10"]`, delays `[20]`. -/
def envScenA : Env :=
  { vectors := ["0x10"], delays := [20], external_files := [],
    progTraces := fun _ => none, rands := fun _ => 0 }

/-- Configuration with a registered program `prog` of size 100 whose
trace is `["CPU,7"]`; no pool partition can hold size 100. -/
def envProg : Env :=
  { vectors := ["0x1", "0x2", "0x3", "0x4"], delays := [20],
    external_files := [{ program_name := "prog", size := 100 }],
    progTraces := fun n => if n = "prog" then some ["CPU,7"] else none,
    rands := fun _ => 0 }

/-- Configuration with six vector entries but a one-entry delay table,
so device 5 is inside the vector table but past the delay table. -/
def envVec6 : Env :=
  { vectors := ["0x10", "0x11", "0x12", "0x13", "0x14", "0x15"], delays := [20],
    external_files := [], progTraces := fun _ => none, rands := fun _ => 0 }

/-- The full result of the Scenario A run, used as a concrete witness
input for the hypothesis-bearing theorems. -/
def resScenA : SimResult :=
  { execution :=
      [{ time := 0, dur := 5, label := "CPU Burst" },
       { time := 5, dur := 1, label := "switch to kernel mode" },
       { time := 6, dur := 10, label := "context saved" },
       { time := 16, dur := 1, label := "find vector 0 in memory position 0x10" },
       { time := 17, dur := 20, label := "SYSCALL ISR" },
       { time := 37, dur := 1, label := "IRET" }],
    status := [], time := 38, st := stInit, errs := [], pids := [] }

/-- The status snapshot emitted by the `["FORK,3"]` run from
`pcbInit`/`stInit` under `envProg` (whose vector table covers FORK's
device 2). -/
def snapFork3 : Snap :=
  { time := 16, label := "FORK", op := 3,
    pcb := { PID := 1, PPID := 0, program_name := "init", size := 1,
             partition_number := 0 },
    queue := [pcbInit] }

/-- The full result of the `["FORK,3"]` run from `pcbInit`/`stInit`
under `envProg`, used as a concrete witness input. -/
def resFork3 : SimResult :=
  { execution :=
      [{ time := 0, dur := 1, label := "switch to kernel mode" },
       { time := 1, dur := 10, label := "context saved" },
       { time := 11, dur := 1, label := "find vector 2 in memory position 0x3" },
       { time := 12, dur := 3, label := "cloning the PCB" },
       { time := 15, dur := 0, label := "scheduler called" },
       { time := 15, dur := 1, label := "IRET" }],
    status := [snapFork3],
    time := 16,
    st := { next_pid := 2, pool := [{ number := 0, size := 2, occupied := false }],
            rk := 0 },
    errs := [], pids := [1] }

/-- Claim C1: on the trace `["CPU,5","SYSCALL,0"]` with vector table
`["0x10"]`, ISR delay table `[20]`, context-save cost 10 and start
clock 0, the interpreter produces exactly the six execution-log entries
(0,5,CPU Burst), (5,1,switch to kernel mode), (6,10,context saved),
(16,1,find vector 0 in memory position 0x10), (17,20,SYSCALL ISR),
(37,1,IRET), in that order, and returns final clock 38. -/
theorem scenarioA :
    simT 3 envScenA ["CPU,5", "SYSCALL,0"] 0 0 pcbInit [] stInit
      = some { execution :=
                 [{ time := 0, dur := 5, label := "CPU Burst" },
                  { time := 5, dur := 1, label := "switch to kernel mode" },
                  { time := 6, dur := 10, label := "context saved" },
                  { time := 16, dur := 1, label := "find vector 0 in memory position 0x10" },
                  { time := 17, dur := 20, label := "SYSCALL ISR" },
                  { time := 37, dur := 1, label := "IRET" }],
               status := [], time := 38, st := stInit, errs := [], pids := [] } := by
  decide

/-- Claim C5, counterexample: in the FORK branch-carving scan over
`IF_CHILD / CPU,1 / IF_PARENT / CPU,7 / ENDIF / CPU,9`, the ENDIF is
met in skip mode (after `IF_PARENT` set skip), yet the line `CPU,9`
positioned after it IS collected into the child trace — the scan's
skip-mode ENDIF arm clears the skip flag instead of being inert. -/
theorem endif_skip_cex :
    carveAux ["IF_CHILD", "CPU,1", "IF_PARENT", "CPU,7", "ENDIF", "CPU,9"] 0 true false 0 []
      = (["CPU,1", "CPU,9"], 2) := by
  decide

/-- Claim C3, counterexample: on `["BLAH,1","CPU,5"]` the unrecognized
tag `BLAH` does not abort the branch and records no error anywhere —
the following `CPU,5` line is still interpreted (one CPU Burst entry),
with empty status log and empty diagnostics. -/
theorem unknown_tag_cex :
    (simT 3 envProg ["BLAH,1", "CPU,5"] 0 0 pcbInit [] stInit).map
        (fun r => (r.execution, r.status, r.errs))
      = some ([{ time := 0, dur := 5, label := "CPU Burst" }], [], []) := by
  decide

/-- Claim C4, counterexample: EXEC of `prog` (size 100) with no fitting
partition: the allocation failure only produces the stderr diagnostic;
the branch does NOT stop — the new program's trace is loaded and
interpreted (its CPU Burst appears after the EXEC entries) and the
status log still receives the EXEC snapshot. -/
theorem exec_alloc_fail_cex :
    (simT 3 envProg ["EXEC prog, 4"] 0 0 pcbInit [] stInit).map
        (fun r => (r.errs, r.execution.map Entry.label, r.status.map Snap.label))
      = some (["ERROR! Memory allocation failed for prog"],
              ["switch to kernel mode", "context saved",
               "find vector 3 in memory position 0x4", "Program is 100 Mb large",
               "loading program into memory", "marking partition as occupied",
               "updating PCB", "scheduler called", "IRET", "CPU Burst"],
              ["EXEC prog"]) := by
  decide

/-- Claim C6, counterexample: running `["FORK,3"]` from the initial
process (pid 0 occupying partition 0), with a vector table covering
FORK's device 2, produces a FORK snapshot whose child PCB (pid 1) and
waiting parent (pid 0) both hold non-sentinel partition 0 — partition
exclusivity fails immediately after FORK. -/
theorem fork_partition_cex :
    (simT 4 envProg ["FORK,3"] 0 0 pcbInit [] stInit).map
        (fun r => (r.status.map (fun s => (s.label, s.pcb.PID, s.pcb.partition_number,
            s.queue.map (fun q => (q.PID, q.partition_number)))),
          r.status.all snapExclusive))
      = some ([("FORK", 1, 0, [(0, 0)])], false) := by
  rfl

/-- Claim C9, counterexample: `SYSCALL,5` — and likewise `END_IO,5` —
with a one-entry delay table (but six vector entries, so the vector
lookup itself is in range) does not fail fatally: no error is recorded,
the ISR and IRET entries are emitted (the out-of-bounds delay read is
undefined behavior in the source, modelled as 0) and the following
`CPU,3` line is still interpreted. -/
theorem isr_oob_cex :
    ((simT 3 envVec6 ["SYSCALL,5", "CPU,3"] 0 0 pcbInit [] stInit).map
        (fun r => (r.execution.map Entry.label, r.errs, r.status))
      = some (["switch to kernel mode", "context saved",
               "find vector 5 in memory position 0x15", "SYSCALL ISR", "IRET",
               "CPU Burst"], [], []))
    ∧ ((simT 3 envVec6 ["END_IO,5", "CPU,3"] 0 0 pcbInit [] stInit).map
        (fun r => (r.execution.map Entry.label, r.errs, r.status))
      = some (["switch to kernel mode", "context saved",
               "find vector 5 in memory position 0x15", "ENDIO ISR", "IRET",
               "CPU Burst"], [], [])) := by
  exact ⟨by decide, by decide⟩

/-- Claim C3 amended: a trace line whose activity tag is not one of
CPU, SYSCALL, END_IO, FORK, EXEC (this includes the three branch
markers and any unrecognized tag) is inert: the interpreter silently
moves to the next line, recording no error. -/
theorem unknown_tag_skipped (fuel : Nat) (env : Env) (trace : List String) (i : Nat)
    (time : Nat) (cur : PCB) (wq : List PCB) (st : SimSt)
    (hi : i < trace.length)
    (ha : (parse_trace (trace.getD i "")).1 ∉
      (["CPU", "SYSCALL", "END_IO", "FORK", "EXEC"] : List String)) :
    simT (fuel + 1) env trace i time cur wq st
      = simT fuel env trace (i + 1) time cur wq st := by
  simp only [List.mem_cons, List.mem_singleton, not_or] at ha
  obtain ⟨h1, h2, h3, h4, h5, -⟩ := ha
  simp only [simT, if_pos hi, if_neg h1, if_neg h2, if_neg h3, if_neg h4, if_neg h5]

/-- Claim C9 amended: the interpreter performs no bounds check on the
ISR delay table: a SYSCALL or END_IO whose operand is at or past the
table's length (an out-of-bounds read, undefined behavior in the
source, modelled as reading 0) does not fail and does not abort the
branch — the ISR entry (duration 0) and the IRET are emitted and
interpretation continues with the next trace line, recording no
error. -/
theorem isr_oob_continues (fuel : Nat) (env : Env) (trace : List String) (i : Nat)
    (time : Nat) (cur : PCB) (wq : List PCB) (st : SimSt) (dop : Nat)
    (hi : i < trace.length)
    (hop : (parse_trace (trace.getD i "")).2.1 = dop)
    (hd : env.delays.length ≤ dop) :
    ((parse_trace (trace.getD i "")).1 = "SYSCALL" →
      simT (fuel + 1) env trace i time cur wq st
        = (simT fuel env trace (i + 1) ((intr_boilerplate time dop 10 env.vectors).2 + 1)
              cur wq st).map
            (prependRes ((intr_boilerplate time dop 10 env.vectors).1 ++
              [{ time := (intr_boilerplate time dop 10 env.vectors).2, dur := 0,
                 label := "SYSCALL ISR" },
               { time := (intr_boilerplate time dop 10 env.vectors).2, dur := 1,
                 label := "IRET" }]) [] [] []))
    ∧ ((parse_trace (trace.getD i "")).1 = "END_IO" →
      simT (fuel + 1) env trace i time cur wq st
        = (simT fuel env trace (i + 1) ((intr_boilerplate time dop 10 env.vectors).2 + 1)
              cur wq st).map
            (prependRes ((intr_boilerplate time dop 10 env.vectors).1 ++
              [{ time := (intr_boilerplate time dop 10 env.vectors).2, dur := 0,
                 label := "ENDIO ISR" },
               { time := (intr_boilerplate time dop 10 env.vectors).2, dur := 1,
                 label := "IRET" }]) [] [] [])) := by
  have hgd : env.delays.getD dop 0 = 0 := by
    simp [List.getD_eq_getElem?_getD, List.getElem?_eq_none hd]
  constructor
  · intro ha
    have h1 : (parse_trace (trace.getD i "")).1 ≠ "CPU" := by rw [ha]; decide
    simp only [simT, if_pos hi, if_neg h1, if_pos ha, sysStep, hop, hgd, Nat.add_zero]
  · intro ha
    have h1 : (parse_trace (trace.getD i "")).1 ≠ "CPU" := by rw [ha]; decide
    have h2 : (parse_trace (trace.getD i "")).1 ≠ "SYSCALL" := by rw [ha]; decide
    simp only [simT, if_pos hi, if_neg h1, if_neg h2, if_pos ha, sysStep, hop, hgd,
      Nat.add_zero]

/-- Claim C2: once an EXEC line is processed, no trace line after it in
the same original sequence is ever interpreted for that process: the
step's result does not depend on the lines after the EXEC (truncating
the trace right after it yields the same result), and the branch's
remaining output is exactly the recursive interpretation of the new
program's trace, spliced after the EXEC handler's own entries. -/
theorem exec_terminal (fuel : Nat) (env : Env) (trace : List String) (i : Nat)
    (time : Nat) (cur : PCB) (wq : List PCB) (st : SimSt) (nt : List String)
    (dop : Nat) (pn : String)
    (hi : i < trace.length)
    (ha : (parse_trace (trace.getD i "")).1 = "EXEC")
    (hop : (parse_trace (trace.getD i "")).2.1 = dop)
    (hpn : (parse_trace (trace.getD i "")).2.2 = pn)
    (ht : env.progTraces pn = some nt) :
    simT (fuel + 1) env trace i time cur wq st
      = simT (fuel + 1) env (trace.take (i + 1)) i time cur wq st
    ∧ simT (fuel + 1) env trace i time cur wq st
      = (simT fuel env nt 0 (execPre env time cur st dop pn).t4
            (execPre env time cur st dop pn).cur3 wq
            (execPre env time cur st dop pn).st1).map
          (prependRes (execPre env time cur st dop pn).es
            [{ time := (execPre env time cur st dop pn).t4, label := "EXEC " ++ pn,
               op := dop, pcb := (execPre env time cur st dop pn).cur3, queue := wq }]
            (execPre env time cur st dop pn).errA []) := by
  have h1 : (parse_trace (trace.getD i "")).1 ≠ "CPU" := by rw [ha]; decide
  have h2 : (parse_trace (trace.getD i "")).1 ≠ "SYSCALL" := by rw [ha]; decide
  have h3 : (parse_trace (trace.getD i "")).1 ≠ "END_IO" := by rw [ha]; decide
  have h4 : (parse_trace (trace.getD i "")).1 ≠ "FORK" := by rw [ha]; decide
  have hit : i < (trace.take (i + 1)).length := by
    simp [List.length_take]; omega
  have hgt : (trace.take (i + 1)).getD i "" = trace.getD i "" := by
    simp [List.getD_eq_getElem?_getD, List.getElem?_take, Nat.lt_succ_self]
  constructor
  · simp only [simT, if_pos hi, if_pos hit, hgt, if_neg h1, if_neg h2, if_neg h3,
      if_neg h4, if_pos ha]
  · simp only [simT, if_pos hi, if_neg h1, if_neg h2, if_neg h3, if_neg h4, if_pos ha,
      hop, hpn, ht]

/-- Claim C4 amended: when EXEC's reallocation finds no fitting
partition, the failure is only a stderr diagnostic, not a fatal logged
error: the branch does not stop — the new program's trace is still
loaded and recursively interpreted (with the PCB left unallocated),
exactly as in the successful case. -/
theorem exec_alloc_fail_continues (fuel : Nat) (env : Env) (trace : List String)
    (i : Nat) (time : Nat) (cur : PCB) (wq : List PCB) (st : SimSt)
    (nt : List String) (dop : Nat) (pn : String)
    (hi : i < trace.length)
    (ha : (parse_trace (trace.getD i "")).1 = "EXEC")
    (hop : (parse_trace (trace.getD i "")).2.1 = dop)
    (hpn : (parse_trace (trace.getD i "")).2.2 = pn)
    (ht : env.progTraces pn = some nt)
    (halloc : allocate_memory (free_memory st.pool cur).1
        { (free_memory st.pool cur).2 with
          program_name := pn, size := get_size pn env.external_files } = none) :
    (execPre env time cur st dop pn).errA
        = ["ERROR! Memory allocation failed for " ++ pn]
    ∧ simT (fuel + 1) env trace i time cur wq st
      = (simT fuel env nt 0 (execPre env time cur st dop pn).t4
            (execPre env time cur st dop pn).cur3 wq
            (execPre env time cur st dop pn).st1).map
          (prependRes (execPre env time cur st dop pn).es
            [{ time := (execPre env time cur st dop pn).t4, label := "EXEC " ++ pn,
               op := dop, pcb := (execPre env time cur st dop pn).cur3, queue := wq }]
            (execPre env time cur st dop pn).errA []) := by
  have h1 : (parse_trace (trace.getD i "")).1 ≠ "CPU" := by rw [ha]; decide
  have h2 : (parse_trace (trace.getD i "")).1 ≠ "SYSCALL" := by rw [ha]; decide
  have h3 : (parse_trace (trace.getD i "")).1 ≠ "END_IO" := by rw [ha]; decide
  have h4 : (parse_trace (trace.getD i "")).1 ≠ "FORK" := by rw [ha]; decide
  constructor
  · simp only [execPre, halloc]
  · simp only [simT, if_pos hi, if_neg h1, if_neg h2, if_neg h3, if_neg h4, if_pos ha,
      hop, hpn, ht]

/-- Witness for C3's amended theorem at a concrete input. -/
theorem unknown_tag_skipped_holds :
    (0 : Nat) < (["BLAH,1", "CPU,5"] : List String).length ∧
    simT 3 envProg ["BLAH,1", "CPU,5"] 0 0 pcbInit [] stInit
      = simT 2 envProg ["BLAH,1", "CPU,5"] 1 0 pcbInit [] stInit :=
  ⟨by decide,
    unknown_tag_skipped 2 envProg ["BLAH,1", "CPU,5"] 0 0 pcbInit [] stInit
      (by decide) (by decide)⟩

/-- Witness for C9's amended theorem at concrete inputs, exercising
both the SYSCALL and the END_IO half. -/
theorem isr_oob_continues_holds :
    envVec6.delays.length ≤ 5 ∧
    (simT 3 envVec6 ["SYSCALL,5", "CPU,3"] 0 0 pcbInit [] stInit
      = (simT 2 envVec6 ["SYSCALL,5", "CPU,3"] 1
            ((intr_boilerplate 0 5 10 envVec6.vectors).2 + 1) pcbInit [] stInit).map
          (prependRes ((intr_boilerplate 0 5 10 envVec6.vectors).1 ++
            [{ time := (intr_boilerplate 0 5 10 envVec6.vectors).2, dur := 0,
               label := "SYSCALL ISR" },
             { time := (intr_boilerplate 0 5 10 envVec6.vectors).2, dur := 1,
               label := "IRET" }]) [] [] [])) ∧
    (simT 3 envVec6 ["END_IO,5", "CPU,3"] 0 0 pcbInit [] stInit
      = (simT 2 envVec6 ["END_IO,5", "CPU,3"] 1
            ((intr_boilerplate 0 5 10 envVec6.vectors).2 + 1) pcbInit [] stInit).map
          (prependRes ((intr_boilerplate 0 5 10 envVec6.vectors).1 ++
            [{ time := (intr_boilerplate 0 5 10 envVec6.vectors).2, dur := 0,
               label := "ENDIO ISR" },
             { time := (intr_boilerplate 0 5 10 envVec6.vectors).2, dur := 1,
               label := "IRET" }]) [] [] [])) :=
  ⟨by decide,
    (isr_oob_continues 2 envVec6 ["SYSCALL,5", "CPU,3"] 0 0 pcbInit [] stInit 5
      (by decide) (by decide) (by decide)).1 (by decide),
    (isr_oob_continues 2 envVec6 ["END_IO,5", "CPU,3"] 0 0 pcbInit [] stInit 5
      (by decide) (by decide) (by decide)).2 (by decide)⟩

/-- Witness for C2's theorem at a concrete input. -/
theorem exec_terminal_holds :
    envProg.progTraces "prog" = some ["CPU,7"] ∧
    (simT 3 envProg ["CPU,2", "EXEC prog, 4", "CPU,9"] 1 5 pcbInit [] stInit
        = simT 3 envProg (["CPU,2", "EXEC prog, 4", "CPU,9"].take 2) 1 5 pcbInit [] stInit
    ∧ simT 3 envProg ["CPU,2", "EXEC prog, 4", "CPU,9"] 1 5 pcbInit [] stInit
        = (simT 2 envProg ["CPU,7"] 0 (execPre envProg 5 pcbInit stInit 4 "prog").t4
              (execPre envProg 5 pcbInit stInit 4 "prog").cur3 []
              (execPre envProg 5 pcbInit stInit 4 "prog").st1).map
            (prependRes (execPre envProg 5 pcbInit stInit 4 "prog").es
              [{ time := (execPre envProg 5 pcbInit stInit 4 "prog").t4,
                 label := "EXEC " ++ "prog", op := 4,
                 pcb := (execPre envProg 5 pcbInit stInit 4 "prog").cur3, queue := [] }]
              (execPre envProg 5 pcbInit stInit 4 "prog").errA [])) :=
  ⟨rfl,
    exec_terminal 2 envProg ["CPU,2", "EXEC prog, 4", "CPU,9"] 1 5 pcbInit [] stInit
      ["CPU,7"] 4 "prog" (by decide) (by decide) (by decide) (by decide) rfl⟩

/-- Witness for C4's amended theorem at a concrete input. -/
theorem exec_alloc_fail_continues_holds :
    allocate_memory (free_memory stInit.pool pcbInit).1
        { (free_memory stInit.pool pcbInit).2 with
          program_name := "prog", size := get_size "prog" envProg.external_files } = none ∧
    ((execPre envProg 0 pcbInit stInit 4 "prog").errA
        = ["ERROR! Memory allocation failed for " ++ "prog"]
    ∧ simT 3 envProg ["EXEC prog, 4"] 0 0 pcbInit [] stInit
        = (simT 2 envProg ["CPU,7"] 0 (execPre envProg 0 pcbInit stInit 4 "prog").t4
              (execPre envProg 0 pcbInit stInit 4 "prog").cur3 []
              (execPre envProg 0 pcbInit stInit 4 "prog").st1).map
            (prependRes (execPre envProg 0 pcbInit stInit 4 "prog").es
              [{ time := (execPre envProg 0 pcbInit stInit 4 "prog").t4,
                 label := "EXEC " ++ "prog", op := 4,
                 pcb := (execPre envProg 0 pcbInit stInit 4 "prog").cur3, queue := [] }]
              (execPre envProg 0 pcbInit stInit 4 "prog").errA [])) :=
  ⟨by decide,
    exec_alloc_fail_continues 2 envProg ["EXEC prog, 4"] 0 0 pcbInit [] stInit
      ["CPU,7"] 4 "prog" (by decide) (by decide) (by decide) (by decide) rfl (by decide)⟩

theorem chained_append {t m t' : Nat} {xs ys : List Entry}
    (hx : Chained t xs m) (hy : Chained m ys t') : Chained t (xs ++ ys) t' := by
  induction xs generalizing t with
  | nil => simp only [Chained] at hx; subst hx; simpa using hy
  | cons e es ih =>
    obtain ⟨h1, h2⟩ := hx
    exact ⟨h1, ih h2⟩

theorem chained_ib (t idx cost : Nat) (vs : List String) :
    Chained t (intr_boilerplate t idx cost vs).1 (intr_boilerplate t idx cost vs).2 := by
  simp [intr_boilerplate, Chained]

theorem chained_sysStep (l : String) (env : Env) (t d : Nat) :
    Chained t (sysStep l env t d).1 (sysStep l env t d).2 := by
  simp [sysStep, intr_boilerplate, Chained]

theorem chained_execPre (env : Env) (t : Nat) (cur : PCB) (st : SimSt) (d : Nat)
    (pn : String) :
    Chained t (execPre env t cur st d pn).es (execPre env t cur st d pn).t4 := by
  simp [execPre, intr_boilerplate, Chained]

theorem simT_chained :
    ∀ (fuel : Nat) (env : Env) (trace : List String) (i time : Nat) (cur : PCB)
      (wq : List PCB) (st : SimSt) (r : SimResult),
      simT fuel env trace i time cur wq st = some r →
      Chained time r.execution r.time := by
  intro fuel
  induction fuel with
  | zero => intro env trace i time cur wq st r h; simp [simT] at h
  | succ n ih =>
    intro env trace i time cur wq st r h
    simp only [simT] at h
    split at h
    · split at h
      · rcases Option.map_eq_some'.mp h with ⟨rc, hrc, hr⟩
        subst hr
        exact chained_append (by simp [Chained]) (ih _ _ _ _ _ _ _ _ hrc)
      · split at h
        · rcases Option.map_eq_some'.mp h with ⟨rc, hrc, hr⟩
          subst hr
          exact chained_append (chained_sysStep _ _ _ _) (ih _ _ _ _ _ _ _ _ hrc)
        · split at h
          · rcases Option.map_eq_some'.mp h with ⟨rc, hrc, hr⟩
            subst hr
            exact chained_append (chained_sysStep _ _ _ _) (ih _ _ _ _ _ _ _ _ hrc)
          · split at h
            · split at h
              · exact absurd h (by simp)
              · rename_i rc hrc
                rcases Option.map_eq_some'.mp h with ⟨rcont, hrcont, hr⟩
                subst hr
                refine chained_append (chained_append (chained_append
                  (chained_ib _ _ _ _) ?_) (ih _ _ _ _ _ _ _ _ hrc))
                  (ih _ _ _ _ _ _ _ _ hrcont)
                simp [Chained]
            · split at h
              · split at h
                · cases h
                  exact chained_execPre env time cur st
                    (parse_trace (trace.getD i "")).2.1 (parse_trace (trace.getD i "")).2.2
                · rcases Option.map_eq_some'.mp h with ⟨rc, hrc, hr⟩
                  subst hr
                  exact chained_append (chained_execPre _ _ _ _ _ _)
                    (ih _ _ _ _ _ _ _ _ hrc)
              · exact ih _ _ _ _ _ _ _ _ h
    · cases h
      simp [Chained]

theorem chained_chain' {t t' : Nat} {es : List Entry} (h : Chained t es t') :
    List.Chain' (fun a b => b.time = a.time + a.dur ∧ a.time ≤ b.time) es := by
  induction es generalizing t with
  | nil => simp
  | cons e es ih =>
    obtain ⟨he, hrest⟩ := h
    cases es with
    | nil => simp
    | cons f fs =>
      obtain ⟨hf, h2⟩ := hrest
      exact List.Chain'.cons ⟨by rw [he, hf], by rw [he, hf]; exact Nat.le_add_right _ _⟩
        (ih ⟨hf, h2⟩)

/-- Claim C8: in every result of the interpreter, consecutive
execution-log entries satisfy `next.time = prev.time + prev.dur` (every
entry advances the clock by exactly its duration, durations 0 included),
so timestamps are non-decreasing throughout the log. -/
theorem clock_monotone (fuel : Nat) (env : Env) (trace : List String) (i time : Nat)
    (cur : PCB) (wq : List PCB) (st : SimSt) (r : SimResult)
    (h : simT fuel env trace i time cur wq st = some r) :
    List.Chain' (fun a b => b.time = a.time + a.dur ∧ a.time ≤ b.time) r.execution :=
  chained_chain' (simT_chained fuel env trace i time cur wq st r h)

/-- Witness for C8's theorem on the Scenario A run. -/
theorem clock_monotone_holds :
    simT 3 envScenA ["CPU,5", "SYSCALL,0"] 0 0 pcbInit [] stInit = some resScenA ∧
    List.Chain' (fun a b => b.time = a.time + a.dur ∧ a.time ≤ b.time)
      resScenA.execution :=
  ⟨by decide,
    clock_monotone 3 envScenA ["CPU,5", "SYSCALL,0"] 0 0 pcbInit [] stInit resScenA
      (by decide)⟩

theorem pidSpan_mono {lo lo' hi : Int} {ps : List Int} (h : PidSpan lo ps hi)
    (hle : lo' ≤ lo) : PidSpan lo' ps hi := by
  induction ps generalizing lo lo' with
  | nil => simp only [PidSpan] at h ⊢; omega
  | cons p ps ih =>
    obtain ⟨h1, h2⟩ := h
    exact ⟨le_trans hle h1, h2⟩

theorem pidSpan_append {lo m hi : Int} {ps qs : List Int}
    (h1 : PidSpan lo ps m) (h2 : PidSpan m qs hi) : PidSpan lo (ps ++ qs) hi := by
  induction ps generalizing lo with
  | nil =>
    simp only [PidSpan] at h1
    simpa using pidSpan_mono h2 h1
  | cons p ps ih =>
    obtain ⟨ha, hb⟩ := h1
    exact ⟨ha, ih hb⟩

theorem pidSpan_bounds {lo hi : Int} {ps : List Int} (h : PidSpan lo ps hi) :
    (∀ p ∈ ps, lo ≤ p ∧ p < hi) ∧ lo ≤ hi := by
  induction ps generalizing lo with
  | nil =>
    simp only [PidSpan] at h
    exact ⟨by simp, h⟩
  | cons p ps ih =>
    obtain ⟨h1, h2⟩ := h
    obtain ⟨hall, hle⟩ := ih h2
    refine ⟨?_, by omega⟩
    intro q hq
    rcases List.mem_cons.mp hq with rfl | hq
    · exact ⟨h1, by omega⟩
    · obtain ⟨hq1, hq2⟩ := hall q hq
      exact ⟨by omega, hq2⟩

theorem pidSpan_pairwise {lo hi : Int} {ps : List Int} (h : PidSpan lo ps hi) :
    List.Pairwise (fun a b => a < b) ps := by
  induction ps generalizing lo with
  | nil => simp
  | cons p ps ih =>
    obtain ⟨h1, h2⟩ := h
    refine List.Pairwise.cons ?_ (ih h2)
    intro q hq
    have := (pidSpan_bounds h2).1 q hq
    omega

theorem simT_pidSpan :
    ∀ (fuel : Nat) (env : Env) (trace : List String) (i time : Nat) (cur : PCB)
      (wq : List PCB) (st : SimSt) (r : SimResult),
      simT fuel env trace i time cur wq st = some r →
      PidSpan st.next_pid r.pids r.st.next_pid := by
  intro fuel
  induction fuel with
  | zero => intro env trace i time cur wq st r h; simp [simT] at h
  | succ n ih =>
    intro env trace i time cur wq st r h
    simp only [simT] at h
    split at h
    · split at h
      · rcases Option.map_eq_some'.mp h with ⟨rc, hrc, hr⟩
        subst hr
        simpa [prependRes] using ih _ _ _ _ _ _ _ _ hrc
      · split at h
        · rcases Option.map_eq_some'.mp h with ⟨rc, hrc, hr⟩
          subst hr
          simpa [prependRes] using ih _ _ _ _ _ _ _ _ hrc
        · split at h
          · rcases Option.map_eq_some'.mp h with ⟨rc, hrc, hr⟩
            subst hr
            simpa [prependRes] using ih _ _ _ _ _ _ _ _ hrc
          · split at h
            · split at h
              · exact absurd h (by simp)
              · rename_i rc hrc
                rcases Option.map_eq_some'.mp h with ⟨rcont, hrcont, hr⟩
                subst hr
                have hc : PidSpan (st.next_pid + 1) rc.pids rc.st.next_pid :=
                  ih _ _ _ _ _ _ _ _ hrc
                have hcont := ih _ _ _ _ _ _ _ _ hrcont
                simp only [prependRes, List.cons_append]
                exact ⟨le_refl _, pidSpan_append hc hcont⟩
            · split at h
              · split at h
                · cases h
                  exact le_refl _
                · rcases Option.map_eq_some'.mp h with ⟨rc, hrc, hr⟩
                  subst hr
                  have hc := ih _ _ _ _ _ _ _ _ hrc
                  simp only [prependRes, List.nil_append]
                  exact hc
              · exact ih _ _ _ _ _ _ _ _ h
    · cases h
      exact le_refl _

/-- Claim C7: across a whole interpretation run the pids issued (in
issue order, each FORK taking the counter's value) are pairwise
strictly increasing — no pid is ever reused and each FORK's child pid
is strictly greater than every pid issued before it, including the
initial process's pid when it lies below the starting counter. -/
theorem pid_unique (fuel : Nat) (env : Env) (trace : List String) (i time : Nat)
    (cur : PCB) (wq : List PCB) (st : SimSt) (r : SimResult)
    (h : simT fuel env trace i time cur wq st = some r)
    (hcur : cur.PID < st.next_pid) :
    List.Pairwise (fun a b : Int => a < b) (cur.PID :: r.pids) := by
  have hs := simT_pidSpan fuel env trace i time cur wq st r h
  refine List.Pairwise.cons ?_ (pidSpan_pairwise hs)
  intro q hq
  have := (pidSpan_bounds hs).1 q hq
  omega

/-- Witness for C7's theorem on the `["FORK,3"]` run. -/
theorem pid_unique_holds :
    pcbInit.PID < stInit.next_pid ∧
    simT 4 envProg ["FORK,3"] 0 0 pcbInit [] stInit = some resFork3 ∧
    List.Pairwise (fun a b : Int => a < b) (pcbInit.PID :: resFork3.pids) :=
  ⟨by decide, by decide,
    pid_unique 4 envProg ["FORK,3"] 0 0 pcbInit [] stInit resFork3 (by decide)
      (by decide)⟩

theorem exec_label_ne_fork (pn : String) : ("EXEC " ++ pn) ≠ "FORK" := by
  intro h
  have hl := congrArg String.length h
  rw [String.length_append] at hl
  have h5 : ("EXEC ").length = 5 := rfl
  have h4 : ("FORK").length = 4 := rfl
  omega

/-- Claim C6 amended: partition exclusivity does not hold across FORK —
the child is deliberately created sharing its parent's partition: in
every status snapshot labelled FORK, anywhere in the recursion, the
dumped child PCB holds exactly the partition of the forking parent,
which sits (still live) at the end of the dumped wait queue. -/
theorem fork_child_shares_partition :
    ∀ (fuel : Nat) (env : Env) (trace : List String) (i time : Nat) (cur : PCB)
      (wq : List PCB) (st : SimSt) (r : SimResult),
      simT fuel env trace i time cur wq st = some r →
      ∀ s ∈ r.status, ForkSnapShares s := by
  intro fuel
  induction fuel with
  | zero => intro env trace i time cur wq st r h; simp [simT] at h
  | succ n ih =>
    intro env trace i time cur wq st r h
    simp only [simT] at h
    split at h
    · split at h
      · rcases Option.map_eq_some'.mp h with ⟨rc, hrc, hr⟩
        subst hr
        simpa [prependRes] using ih _ _ _ _ _ _ _ _ hrc
      · split at h
        · rcases Option.map_eq_some'.mp h with ⟨rc, hrc, hr⟩
          subst hr
          simpa [prependRes] using ih _ _ _ _ _ _ _ _ hrc
        · split at h
          · rcases Option.map_eq_some'.mp h with ⟨rc, hrc, hr⟩
            subst hr
            simpa [prependRes] using ih _ _ _ _ _ _ _ _ hrc
          · split at h
            · split at h
              · exact absurd h (by simp)
              · rename_i rc hrc
                rcases Option.map_eq_some'.mp h with ⟨rcont, hrcont, hr⟩
                subst hr
                intro s hs
                simp only [prependRes, List.cons_append, List.mem_cons,
                  List.mem_append] at hs
                rcases hs with rfl | hs | hs
                · intro _
                  refine ⟨by simp, ?_⟩
                  simp [List.getLastD_concat]
                · exact ih _ _ _ _ _ _ _ _ hrc s hs
                · exact ih _ _ _ _ _ _ _ _ hrcont s hs
            · split at h
              · split at h
                · cases h
                  intro s hs
                  simp only [List.mem_singleton] at hs
                  subst hs
                  intro hlab
                  exact absurd hlab (exec_label_ne_fork _)
                · rcases Option.map_eq_some'.mp h with ⟨rc, hrc, hr⟩
                  subst hr
                  intro s hs
                  simp only [prependRes, List.singleton_append, List.mem_cons] at hs
                  rcases hs with rfl | hs
                  · intro hlab
                    exact absurd hlab (exec_label_ne_fork _)
                  · exact ih _ _ _ _ _ _ _ _ hrc s hs
              · exact ih _ _ _ _ _ _ _ _ h
    · cases h
      intro s hs
      simp at hs

/-- Witness for C6's amended theorem on the `["FORK,3"]` run: the
emitted FORK snapshot's child shares the queued parent's partition. -/
theorem fork_child_shares_partition_holds :
    simT 4 envProg ["FORK,3"] 0 0 pcbInit [] stInit = some resFork3 ∧
    (snapFork3.queue ≠ [] ∧
      snapFork3.pcb.partition_number
        = (snapFork3.queue.getLastD snapFork3.pcb).partition_number) :=
  ⟨by decide,
    fork_child_shares_partition 4 envProg ["FORK,3"] 0 0 pcbInit [] stInit resFork3
      (by decide) snapFork3 (by decide) rfl⟩

/-- Claim C5 amended: an ENDIF encountered while the branch-carving
scan is skipping (including while skipping parent-only lines after an
`IF_PARENT`) is not inert: it clears the skip flag, exactly like an
`IF_CHILD`, so the lines that follow it are again collected into the
child's trace (until the next `IF_PARENT`). -/
theorem endif_exits_skip (line : String) (rest : List String) (j pIdx : Nat)
    (ef : Bool) (acc : List String)
    (ha : (parse_trace line).1 = "ENDIF") :
    carveAux (line :: rest) j true ef pIdx acc
      = carveAux rest (j + 1) false ef pIdx acc := by
  simp [carveAux, ha]

/-- Witness for C5's amended theorem at a concrete input. -/
theorem endif_exits_skip_holds :
    (parse_trace "ENDIF").1 = "ENDIF" ∧
    carveAux ["ENDIF", "CPU,9"] 4 true false 2 ["CPU,1"]
      = carveAux ["CPU,9"] 5 false false 2 ["CPU,1"] :=
  ⟨rfl, endif_exits_skip "ENDIF" ["CPU,9"] 4 2 false ["CPU,1"] rfl⟩

end Interrupts
